import Mathlib

/-!
Shallow embedding of the analytic core of `src/AgriPrice/app.py`
(AgriPrice-PJDSC2025): per-commodity price statistics, spike flagging,
typhoon-to-spike lag computation, and the lag summary.

Prices are modelled as rationals (`ℚ`); pandas dates are modelled as a
`Date` structure with year, month and day, ordered lexicographically.
pandas' `std` is the sample standard deviation (divisor `n - 1`), `NaN`
for a single-element group; a comparison against `NaN` is `False`.  We
keep the sample *variance* in the stats table (a rational) and compute
the flag by the squared comparison, which we prove equivalent to the
literal `price > mean + 1.5 * sqrt variance` over the reals
(`spikeFlagO_iff_real`): the square root of a rational is irrational in
general, so the flag itself must be a computable Boolean.
-/

namespace AgriPrice

/-- A calendar date as carried by a pandas `Timestamp`: year, month
(1..12) and day (1..31).  Price dates are month-granular (day 1 by
construction in `load_data`); typhoon dates are full dates. -/
structure Date where
  year : Nat
  month : Nat
  day : Nat
deriving DecidableEq, Repr

/-- Lexicographic order on dates, as pandas compares `Timestamp`s. -/
def Date.le (a b : Date) : Prop :=
  a.year < b.year ∨
    (a.year = b.year ∧
      (a.month < b.month ∨ (a.month = b.month ∧ a.day ≤ b.day)))

instance (a b : Date) : Decidable (Date.le a b) := by
  unfold Date.le; infer_instance

/-- Months of a date have to lie in 1..12 for it to denote a real
calendar date (pandas rejects anything else at parse time). -/
def Date.Valid (d : Date) : Prop := 1 ≤ d.month ∧ d.month ≤ 12

instance (d : Date) : Decidable d.Valid := by
  unfold Date.Valid; infer_instance

/-- Number of days of a month, used by `pd.DateOffset` to clamp the day
when the target month is shorter. -/
def daysInMonth (y : Nat) (m : Nat) : Nat :=
  if m = 2 then
    if y % 4 = 0 ∧ (y % 100 ≠ 0 ∨ y % 400 = 0) then 29 else 28
  else if m = 4 ∨ m = 6 ∨ m = 9 ∨ m = 11 then 30
  else 31

/-- Linear month index of a date (month-of-era), used to reason about
calendar-month arithmetic. -/
def monthIndex (d : Date) : Nat := d.year * 12 + (d.month - 1)

/-- `d + k` calendar months, the semantics of `pd.DateOffset(months=k)`:
the month index advances by exactly `k` and the day is clamped to the
length of the target month. -/
def addMonths (d : Date) (k : Nat) : Date :=
  let t := monthIndex d + k
  let y := t / 12
  let m := t % 12 + 1
  { year := y, month := m, day := min d.day (daysInMonth y m) }

/-- The smaller of two dates, as `groupby(...)["Date"].min()` folds. -/
def dateMin (a b : Date) : Date := if Date.le a b then a else b

/-- A row of the cleaned, merged price table: non-null `Date`,
`Commodity_Name` and numeric `Retail_Price` (rows failing this were
dropped by `load_data`). -/
structure PriceRow where
  date : Date
  commodity : String
  price : ℚ
deriving DecidableEq, Repr

/-- Retail prices of one commodity's group, in table order
(`df.groupby("Commodity_Name")["Retail_Price"]`). -/
def pricesOf (tbl : List PriceRow) (c : String) : List ℚ :=
  (tbl.filter (fun r => r.commodity = c)).map (fun r => r.price)

/-- Arithmetic mean of a list of rationals (pandas `mean`). -/
def listMean (xs : List ℚ) : ℚ := xs.sum / xs.length

/-- Sample variance (pandas `std` squared, `ddof=1`): division by
`n - 1`; `none` models the `NaN` pandas produces for a group with a
single observation. -/
def sampleVar (xs : List ℚ) : Option ℚ :=
  if 2 ≤ xs.length then
    some (((xs.map (fun x => (x - listMean xs) ^ 2)).sum) / ((xs.length : ℚ) - 1))
  else none

/-- Distinct commodity names in first-appearance order: the group keys
of `df.groupby("Commodity_Name")`. -/
def commodities (tbl : List PriceRow) : List String :=
  (tbl.map (fun r => r.commodity)).dedup

/-- The `stats` table of line 432: one row per distinct commodity with
the group's `Mean_Price` and (the square of) its `Std_Price`; the
variance is kept because the standard deviation itself is irrational in
general, and `none` models `Std_Price = NaN` (single observation). -/
def stats (tbl : List PriceRow) : List (String × ℚ × Option ℚ) :=
  (commodities tbl).map
    (fun c => (c, listMean (pricesOf tbl c), sampleVar (pricesOf tbl c)))

/-- Left-merge lookup: the stats row a price row receives from
`df.merge(stats, on="Commodity_Name", how="left")`. -/
def lookupStats (s : List (String × ℚ × Option ℚ)) (c : String) :
    Option (ℚ × Option ℚ) :=
  (s.find? (fun e => e.1 = c)).map (fun e => e.2)

/-- The Boolean spike test at fixed stats:
`Retail_Price > Mean_Price + 1.5 * Std_Price` where `Std_Price` is the
square root of the stored variance.  Computed by the equivalent squared
comparison (`price - mean` positive and `9 * v < 4 * (price - mean) ^ 2`,
i.e. `(1.5 ^ 2) * v < (price - mean) ^ 2` cleared of denominators, so the
test stays inside `ℚ`); `none` (pandas `NaN`) compares `False`.
`spikeFlagO_iff_real` below proves this equal to the literal real
inequality against `mean + 1.5 * Real.sqrt v`. -/
def spikeFlagO (price mean : ℚ) (var? : Option ℚ) : Bool :=
  match var? with
  | none => false
  | some v => decide (mean < price) && decide (9 * v < 4 * (price - mean) ^ 2)

/-- The `Price_Spike` column of line 437 (merge-based path): join the
per-commodity stats onto the row, then compare
`Retail_Price > Mean_Price + 1.5 * Std_Price`. -/
def Price_Spike (tbl : List PriceRow) (r : PriceRow) : Bool :=
  match lookupStats (stats tbl) r.commodity with
  | none => false
  | some (m, v?) => spikeFlagO r.price m v?

/-- The fallback `Price_Spike` of lines 511-512 (transform-based path):
compare `Retail_Price` against the groupwise expression
`x.mean() + 1.5 * x.std()` computed directly on the row's group. -/
def Price_Spike_transform (tbl : List PriceRow) (r : PriceRow) : Bool :=
  spikeFlagO r.price (listMean (pricesOf tbl r.commodity))
    (sampleVar (pricesOf tbl r.commodity))

/-- A price row together with its computed `Price_Spike` column: the
shape of `df` after line 437. -/
structure FlaggedRow where
  date : Date
  commodity : String
  price : ℚ
  flag : Bool
deriving DecidableEq, Repr

/-- Attach the `Price_Spike` column to every row of the table. -/
def flagTable (tbl : List PriceRow) : List FlaggedRow :=
  tbl.map (fun r => { date := r.date, commodity := r.commodity,
                      price := r.price, flag := Price_Spike tbl r })

/-- A typhoon row: `Typhoon Name` and `Date_Entered_PAR`, which is
`none` when `pd.to_datetime(..., errors="coerce")` produced `NaT`. -/
structure Typhoon where
  name : String
  date : Option Date
deriving DecidableEq, Repr

/-- One output row of the lag computation: typhoon, commodity, the
earliest spike date in the window and the whole-month lag. -/
structure LagRecord where
  typhoon_name : String
  commodity : String
  first_spike_date : Date
  lag_months : Int
deriving DecidableEq, Repr

/-- The filter of lines 572-576: flagged rows whose date lies in the
closed window `[ty_date, ty_date + 2 months]`. -/
def spikesAfter (fp : List FlaggedRow) (t : Date) : List FlaggedRow :=
  fp.filter (fun r =>
    r.flag && decide (Date.le t r.date) && decide (Date.le r.date (addMonths t 2)))

/-- Group keys of the selected rows (`groupby("Commodity_Name")`). -/
def groupCommodities (rows : List FlaggedRow) : List String :=
  (rows.map (fun r => r.commodity)).dedup

/-- `groupby("Commodity_Name")["Date"].min()` restricted to one group:
the earliest date among the rows of commodity `c`, `none` when the
group is empty. -/
def firstSpikeDate (rows : List FlaggedRow) (c : String) : Option Date :=
  match (rows.filter (fun r => r.commodity = c)).map (fun r => r.date) with
  | [] => none
  | d :: ds => some (ds.foldl dateMin d)

/-- `Lag_Months` of lines 580-583:
`(spike.year - ty.year) * 12 + (spike.month - ty.month)`. -/
def lagMonths (t s : Date) : Int :=
  ((s.year : Int) - (t.year : Int)) * 12 + ((s.month : Int) - (t.month : Int))

/-- Lag records contributed by a single typhoon (one loop iteration of
lines 565-585): skip a `NaT` date; otherwise select the window, group
by commodity, take each group's earliest date and attach the month
lag.  A typhoon with an empty selection contributes nothing. -/
def typhoonLags (fp : List FlaggedRow) (ty : Typhoon) : List LagRecord :=
  match ty.date with
  | none => []
  | some t =>
    let sel := spikesAfter fp t
    (groupCommodities sel).filterMap (fun c =>
      (firstSpikeDate sel c).map (fun d =>
        { typhoon_name := ty.name, commodity := c,
          first_spike_date := d, lag_months := lagMonths t d }))

/-- The whole `lags` loop of lines 565-588 (`computeLag` of the spec):
concatenate every typhoon's records in table order. -/
def computeLag (typhoons : List Typhoon) (fp : List FlaggedRow) : List LagRecord :=
  (typhoons.map (typhoonLags fp)).flatten

/-- The dates, per commodity, among the rows a typhoon at `t` selects:
the pool from which `first_spike_date` is the minimum. -/
def qualDates (fp : List FlaggedRow) (t : Date) (c : String) : List Date :=
  ((spikesAfter fp t).filter (fun r => r.commodity = c)).map (fun r => r.date)

/-- pandas `median`: middle element of the sorted list, or the average
of the two middle elements for an even count. -/
def median (xs : List ℚ) : ℚ :=
  let s := xs.mergeSort (fun a b => decide (a ≤ b))
  let n := s.length
  if n % 2 = 1 then s.getD (n / 2) 0
  else (s.getD (n / 2 - 1) 0 + s.getD (n / 2) 0) / 2

/-- The lag values of one commodity's records, in order, as rationals
(`df_lag.groupby("Commodity_Name")["Lag_Months"]`). -/
def lagsOf (recs : List LagRecord) (c : String) : List ℚ :=
  (recs.filter (fun r => r.commodity = c)).map (fun r => (r.lag_months : ℚ))

/-- The `lag_summary` of line 592 (`summarizeLag` of the spec): one row
per distinct commodity among the lag records, with the mean, median and
count of its `Lag_Months`. -/
def summarizeLag (recs : List LagRecord) : List (String × ℚ × ℚ × Nat) :=
  ((recs.map (fun r => r.commodity)).dedup).map
    (fun c => (c, listMean (lagsOf recs c), median (lagsOf recs c), (lagsOf recs c).length))

/-- The four-observation table of the spec's section-8 example: a
single commodity with retail prices 10, 10, 10 and 1000 on four
consecutive months. -/
def tbl4 : List PriceRow :=
  [⟨⟨2021, 1, 1⟩, "X", 10⟩, ⟨⟨2021, 2, 1⟩, "X", 10⟩,
   ⟨⟨2021, 3, 1⟩, "X", 10⟩, ⟨⟨2021, 4, 1⟩, "X", 1000⟩]

/-- The price-1000 observation of `tbl4`. -/
def row1000 : PriceRow := ⟨⟨2021, 4, 1⟩, "X", 1000⟩

/-! ### Order lemmas for dates -/

theorem Date.le_refl (a : Date) : Date.le a a := by
  unfold Date.le; omega

theorem Date.le_total (a b : Date) : Date.le a b ∨ Date.le b a := by
  unfold Date.le; omega

theorem Date.le_antisymm {a b : Date} (h1 : Date.le a b) (h2 : Date.le b a) :
    a = b := by
  obtain ⟨ay, am, ad⟩ := a
  obtain ⟨by_, bm, bd⟩ := b
  unfold Date.le at h1 h2
  dsimp only at h1 h2
  simp only [Date.mk.injEq]
  omega

theorem Date.le_trans {a b c : Date} (h1 : Date.le a b) (h2 : Date.le b c) :
    Date.le a c := by
  unfold Date.le at h1 h2 ⊢; omega

theorem dateMin_le_left (a b : Date) : Date.le (dateMin a b) a := by
  unfold dateMin
  split
  next h => exact Date.le_refl a
  next h =>
    rcases Date.le_total a b with h' | h'
    · exact absurd h' h
    · exact h'

theorem dateMin_le_right (a b : Date) : Date.le (dateMin a b) b := by
  unfold dateMin
  split
  next h => exact h
  next h => exact Date.le_refl b

theorem dateMin_eq_or (a b : Date) : dateMin a b = a ∨ dateMin a b = b := by
  unfold dateMin
  split
  · exact Or.inl rfl
  · exact Or.inr rfl

theorem foldl_dateMin_mem (d : Date) (ds : List Date) :
    ds.foldl dateMin d ∈ d :: ds := by
  induction ds generalizing d with
  | nil => simp
  | cons x xs ih =>
    simp only [List.foldl_cons]
    rcases dateMin_eq_or d x with h | h <;> rw [h]
    · have := ih d
      simp only [List.mem_cons] at this ⊢
      tauto
    · have := ih x
      simp only [List.mem_cons] at this ⊢
      tauto

theorem foldl_dateMin_le (d : Date) (ds : List Date) :
    ∀ x ∈ d :: ds, Date.le (ds.foldl dateMin d) x := by
  induction ds generalizing d with
  | nil => simpa using Date.le_refl d
  | cons y ys ih =>
    intro x hx
    simp only [List.mem_cons] at hx
    simp only [List.foldl_cons]
    rcases hx with rfl | rfl | hx
    · exact Date.le_trans (ih (dateMin x y) (dateMin x y) (List.mem_cons_self _ _))
        (dateMin_le_left x y)
    · exact Date.le_trans (ih (dateMin d x) (dateMin d x) (List.mem_cons_self _ _))
        (dateMin_le_right d x)
    · exact ih (dateMin d y) x (List.mem_cons_of_mem _ hx)

/-- `firstSpikeDate` returns `some d` exactly when `d` is the minimum
date of the (nonempty) group: a member that is below every member. -/
theorem firstSpikeDate_eq_some_iff (rows : List FlaggedRow) (c : String) (d : Date) :
    firstSpikeDate rows c = some d ↔
      (d ∈ (rows.filter (fun r => r.commodity = c)).map (fun r => r.date) ∧
       ∀ x ∈ (rows.filter (fun r => r.commodity = c)).map (fun r => r.date),
         Date.le d x) := by
  unfold firstSpikeDate
  cases h : (rows.filter (fun r => r.commodity = c)).map (fun r => r.date) with
  | nil => simp
  | cons a as =>
    simp only [Option.some.injEq]
    constructor
    · rintro rfl
      exact ⟨foldl_dateMin_mem a as, foldl_dateMin_le a as⟩
    · rintro ⟨hmem, hle⟩
      exact Date.le_antisymm (foldl_dateMin_le a as d hmem)
        (hle _ (foldl_dateMin_mem a as))

/-! ### Statistics lemmas -/

/-- A sample variance is a sum of squares over a positive count, hence
nonnegative. -/
theorem sampleVar_nonneg {xs : List ℚ} {v : ℚ} (h : sampleVar xs = some v) :
    0 ≤ v := by
  unfold sampleVar at h
  split at h
  next hlen =>
    simp only [Option.some.injEq] at h
    subst h
    apply div_nonneg
    · apply List.sum_nonneg
      intro x hx
      simp only [List.mem_map] at hx
      obtain ⟨y, -, rfl⟩ := hx
      positivity
    · have h2 : (2 : ℚ) ≤ (xs.length : ℚ) := by exact_mod_cast hlen
      linarith
  next => exact absurd h (by simp)

/-- Finding the entry of key `c` in a table built by mapping a
key-to-entry function over a list of keys containing `c`. -/
theorem find?_keyed_map (g : String → ℚ × Option ℚ) (keys : List String)
    (c : String) (hc : c ∈ keys) :
    (keys.map (fun k => (k, g k))).find? (fun e => e.1 = c) = some (c, g c) := by
  induction keys with
  | nil => cases hc
  | cons k ks ih =>
    simp only [List.mem_cons] at hc
    by_cases hk : k = c
    · subst hk
      simp [List.find?]
    · have hc' : c ∈ ks := by tauto
      simp only [List.map_cons, List.find?_cons]
      have : (decide ((k, g k).1 = c)) = false := by
        simp [hk]
      rw [this]
      exact ih hc'

/-- Finding the entry of an absent key fails. -/
theorem find?_keyed_map_none (g : String → ℚ × Option ℚ) (keys : List String)
    (c : String) (hc : c ∉ keys) :
    (keys.map (fun k => (k, g k))).find? (fun e => e.1 = c) = none := by
  rw [List.find?_eq_none]
  intro e he
  simp only [List.mem_map] at he
  obtain ⟨k, hk, rfl⟩ := he
  simp only [decide_eq_true_eq]
  intro hkc
  exact hc (hkc ▸ hk)

/-- The left merge of line 434 hands each present commodity exactly the
group mean and group variance computed in `stats`. -/
theorem lookupStats_stats (tbl : List PriceRow) (c : String)
    (hc : c ∈ commodities tbl) :
    lookupStats (stats tbl) c =
      some (listMean (pricesOf tbl c), sampleVar (pricesOf tbl c)) := by
  unfold lookupStats stats
  rw [find?_keyed_map (fun k => (listMean (pricesOf tbl k), sampleVar (pricesOf tbl k)))
      (commodities tbl) c hc]
  rfl

/-- A commodity absent from the table has no stats row. -/
theorem lookupStats_stats_none (tbl : List PriceRow) (c : String)
    (hc : c ∉ commodities tbl) :
    lookupStats (stats tbl) c = none := by
  unfold lookupStats stats
  rw [find?_keyed_map_none (fun k => (listMean (pricesOf tbl k), sampleVar (pricesOf tbl k)))
      (commodities tbl) c hc]
  rfl

/-- A commodity absent from the table has an empty price group. -/
theorem pricesOf_eq_nil (tbl : List PriceRow) (c : String)
    (hc : c ∉ commodities tbl) : pricesOf tbl c = [] := by
  unfold pricesOf
  rw [List.map_eq_nil_iff, List.filter_eq_nil_iff]
  intro r hr
  simp only [decide_eq_true_eq]
  intro hrc
  exact hc (by
    unfold commodities
    rw [List.mem_dedup, List.mem_map]
    exact ⟨r, hr, hrc⟩)

/-- The computable spike test coincides with the literal comparison of
line 437, `Retail_Price > Mean_Price + 1.5 * Std_Price`, read over the
reals with `Std_Price` the square root of the variance. -/
theorem spikeFlagO_iff_real (p m v : ℚ) (hv : 0 ≤ v) :
    spikeFlagO p m (some v) = true ↔
      ((m : ℝ) + 3 / 2 * Real.sqrt (v : ℝ) < (p : ℝ)) := by
  have hvR : (0 : ℝ) ≤ (v : ℝ) := by exact_mod_cast hv
  have hsq : Real.sqrt ((9 / 4 : ℝ) * (v : ℝ)) = 3 / 2 * Real.sqrt (v : ℝ) := by
    rw [Real.sqrt_mul (by norm_num : (0 : ℝ) ≤ 9 / 4)]
    rw [show (9 / 4 : ℝ) = (3 / 2) ^ 2 by norm_num,
      Real.sqrt_sq (by norm_num : (0 : ℝ) ≤ 3 / 2)]
  unfold spikeFlagO
  simp only [Bool.and_eq_true, decide_eq_true_eq]
  constructor
  · rintro ⟨h1, h2⟩
    have h1R : (m : ℝ) < (p : ℝ) := by exact_mod_cast h1
    have h2R : 9 * (v : ℝ) < 4 * ((p : ℝ) - (m : ℝ)) ^ 2 := by exact_mod_cast h2
    have ha : (0 : ℝ) < (p : ℝ) - (m : ℝ) := by linarith
    have h3 : (9 / 4 : ℝ) * (v : ℝ) < ((p : ℝ) - (m : ℝ)) ^ 2 := by linarith
    have h4 := (Real.sqrt_lt' ha).mpr h3
    rw [hsq] at h4
    linarith
  · intro h
    have hs : (0 : ℝ) ≤ Real.sqrt (v : ℝ) := Real.sqrt_nonneg _
    have ha : (0 : ℝ) < (p : ℝ) - (m : ℝ) := by nlinarith
    have h4 : Real.sqrt ((9 / 4 : ℝ) * (v : ℝ)) < (p : ℝ) - (m : ℝ) := by
      rw [hsq]; linarith
    have h3 := (Real.sqrt_lt' ha).mp h4
    constructor
    · exact_mod_cast (by linarith : (m : ℝ) < (p : ℝ))
    · exact_mod_cast (by linarith : 9 * (v : ℝ) < 4 * ((p : ℝ) - (m : ℝ)) ^ 2)

/-! ### Membership characterizations of the lag pipeline -/

theorem mem_spikesAfter {fp : List FlaggedRow} {t : Date} {r : FlaggedRow} :
    r ∈ spikesAfter fp t ↔
      r ∈ fp ∧ r.flag = true ∧ Date.le t r.date ∧
        Date.le r.date (addMonths t 2) := by
  unfold spikesAfter
  simp [List.mem_filter, and_assoc]

theorem mem_groupCommodities {rows : List FlaggedRow} {c : String} :
    c ∈ groupCommodities rows ↔ ∃ r ∈ rows, r.commodity = c := by
  unfold groupCommodities
  simp [List.mem_dedup, List.mem_map]

theorem mem_qualDates {fp : List FlaggedRow} {t : Date} {c : String} {d : Date} :
    d ∈ qualDates fp t c ↔
      ∃ r ∈ fp, r.flag = true ∧ Date.le t r.date ∧
        Date.le r.date (addMonths t 2) ∧ r.commodity = c ∧ r.date = d := by
  unfold qualDates
  simp only [List.mem_map, List.mem_filter, decide_eq_true_eq]
  constructor
  · rintro ⟨r, ⟨hsel, hc⟩, rfl⟩
    rcases mem_spikesAfter.mp hsel with ⟨hr, hf, h1, h2⟩
    exact ⟨r, hr, hf, h1, h2, hc, rfl⟩
  · rintro ⟨r, hr, hf, h1, h2, hc, rfl⟩
    exact ⟨r, ⟨mem_spikesAfter.mpr ⟨hr, hf, h1, h2⟩, hc⟩, rfl⟩

theorem mem_typhoonLags {fp : List FlaggedRow} {ty : Typhoon} {rec : LagRecord} :
    rec ∈ typhoonLags fp ty ↔
      ∃ t, ty.date = some t ∧ rec.typhoon_name = ty.name ∧
        rec.first_spike_date ∈ qualDates fp t rec.commodity ∧
        (∀ x ∈ qualDates fp t rec.commodity, Date.le rec.first_spike_date x) ∧
        rec.lag_months = lagMonths t rec.first_spike_date := by
  obtain ⟨name, date⟩ := ty
  cases date with
  | none => simp [typhoonLags]
  | some t =>
    simp only [typhoonLags, List.mem_filterMap, Option.map_eq_some',
      Option.some.injEq]
    constructor
    · rintro ⟨c, hcmem, d, hfirst, rfl⟩
      refine ⟨t, rfl, rfl, ?_, ?_, rfl⟩
      · exact (firstSpikeDate_eq_some_iff _ _ _).mp hfirst |>.1
      · exact (firstSpikeDate_eq_some_iff _ _ _).mp hfirst |>.2
    · rintro ⟨t', ht', hname, hmem, hmin, hlag⟩
      subst ht'
      refine ⟨rec.commodity, ?_, rec.first_spike_date, ?_, ?_⟩
      · rcases List.mem_map.mp hmem with ⟨r, hrfil, hrd⟩
        exact mem_groupCommodities.mpr
          ⟨r, List.mem_of_mem_filter hrfil, by
            simpa using (List.of_mem_filter hrfil)⟩
      · exact (firstSpikeDate_eq_some_iff _ _ _).mpr ⟨hmem, hmin⟩
      · cases rec
        simp only at hname hlag
        simp [hname, hlag]

theorem mem_computeLag {tys : List Typhoon} {fp : List FlaggedRow}
    {rec : LagRecord} :
    rec ∈ computeLag tys fp ↔ ∃ ty ∈ tys, rec ∈ typhoonLags fp ty := by
  unfold computeLag
  simp [List.mem_flatten, List.mem_map]

/-! ### Calendar-month arithmetic -/

theorem monthIndex_addMonths (d : Date) (k : Nat) :
    monthIndex (addMonths d k) = monthIndex d + k := by
  unfold addMonths monthIndex
  dsimp only
  omega

theorem addMonths_valid (d : Date) (k : Nat) : (addMonths d k).Valid := by
  unfold addMonths Date.Valid
  dsimp only
  omega

theorem monthIndex_le_of_le {a b : Date} (ha1 : 1 ≤ a.month)
    (ha2 : a.month ≤ 12) (hb1 : 1 ≤ b.month) (h : Date.le a b) :
    monthIndex a ≤ monthIndex b := by
  unfold Date.le at h
  unfold monthIndex
  omega

theorem lagMonths_eq_monthIndex {t s : Date} (ht : 1 ≤ t.month)
    (hs : 1 ≤ s.month) :
    lagMonths t s = (monthIndex s : Int) - (monthIndex t : Int) := by
  unfold lagMonths monthIndex
  omega

/-! ### Evaluation of the section-8 example table -/

theorem tbl4_prices : pricesOf tbl4 "X" = [10, 10, 10, 1000] := by rfl

theorem tbl4_mean : listMean (pricesOf tbl4 "X") = 515 / 2 := by
  rw [tbl4_prices]
  unfold listMean
  norm_num

theorem tbl4_var : sampleVar (pricesOf tbl4 "X") = some 245025 := by
  unfold sampleVar
  rw [if_pos (by rw [tbl4_prices]; norm_num : 2 ≤ (pricesOf tbl4 "X").length)]
  rw [tbl4_mean, tbl4_prices]
  norm_num

theorem sqrt_245025 : Real.sqrt (((245025 : ℚ) : ℝ)) = 495 := by
  rw [show (((245025 : ℚ) : ℝ)) = (495 : ℝ) ^ 2 by norm_num,
    Real.sqrt_sq (by norm_num : (0 : ℝ) ≤ 495)]

theorem tbl4_flag_false : Price_Spike tbl4 row1000 = false := by
  unfold Price_Spike
  have hc : row1000.commodity ∈ commodities tbl4 := by decide
  rw [lookupStats_stats tbl4 _ hc]
  show spikeFlagO (1000 : ℚ) (listMean (pricesOf tbl4 "X")) (sampleVar (pricesOf tbl4 "X")) = false
  rw [tbl4_mean, tbl4_var]
  have hnot : ¬ (9 * (245025 : ℚ) < 4 * (1000 - 515 / 2) ^ 2) := by norm_num
  simp [spikeFlagO, hnot]

/-! ### Claim theorems -/

/-- C1: for every price observation, the `Price_Spike` flag of line 437
is true iff its commodity's standard deviation is non-null (the group
has at least two observations, so the sample variance is defined) and
`retail_price > mean_price + 1.5 * std_price`; in every other case —
including the `NaN` standard deviation of a single-observation
commodity — the flag is false. -/
theorem spike_flag_iff_above_threshold (tbl : List PriceRow) (r : PriceRow) :
    Price_Spike tbl r = true ↔
      ∃ v, sampleVar (pricesOf tbl r.commodity) = some v ∧
        ((listMean (pricesOf tbl r.commodity) : ℚ) : ℝ) +
            3 / 2 * Real.sqrt ((v : ℚ) : ℝ) < ((r.price : ℚ) : ℝ) := by
  by_cases hc : r.commodity ∈ commodities tbl
  · unfold Price_Spike
    rw [lookupStats_stats tbl _ hc]
    cases hv : sampleVar (pricesOf tbl r.commodity) with
    | none =>
      show spikeFlagO r.price (listMean (pricesOf tbl r.commodity)) none = true ↔ _
      simp [spikeFlagO]
    | some v =>
      show spikeFlagO r.price (listMean (pricesOf tbl r.commodity)) (some v) = true ↔ _
      rw [spikeFlagO_iff_real _ _ _ (sampleVar_nonneg hv)]
      constructor
      · intro h
        exact ⟨v, rfl, h⟩
      · rintro ⟨v', hv', h⟩
        obtain rfl : v = v' := by injection hv'
        exact h
  · unfold Price_Spike
    rw [lookupStats_stats_none tbl _ hc, pricesOf_eq_nil tbl _ hc]
    simp [sampleVar]

/-- C2: for every commodity present in the price table, the `stats`
table of line 432 carries the arithmetic mean of the group's retail
prices; for a group of at least two observations it carries the sample
variance (squared sample standard deviation, divisor `n - 1`), so the
standard deviation is its nonnegative square root; for a group of
exactly one observation the standard deviation is null; and the stats
table has exactly one row per distinct commodity name. -/
theorem stats_mean_std_characterization (tbl : List PriceRow) (c : String)
    (hc : c ∈ tbl.map (fun r => r.commodity)) :
    ((stats tbl).map (fun e => e.1) = (tbl.map (fun r => r.commodity)).dedup ∧
      ((stats tbl).map (fun e => e.1)).Nodup) ∧
    ∃ m v?, lookupStats (stats tbl) c = some (m, v?) ∧
      m = (pricesOf tbl c).sum / ((pricesOf tbl c).length : ℚ) ∧
      (2 ≤ (pricesOf tbl c).length →
        ∃ v, v? = some v ∧
          v = ((pricesOf tbl c).map (fun x => (x - m) ^ 2)).sum /
              (((pricesOf tbl c).length : ℚ) - 1) ∧
          0 ≤ Real.sqrt ((v : ℚ) : ℝ) ∧
          Real.sqrt ((v : ℚ) : ℝ) ^ 2 =
            ((((pricesOf tbl c).map (fun x => (x - m) ^ 2)).sum : ℚ) : ℝ) /
              (((pricesOf tbl c).length : ℝ) - 1)) ∧
      ((pricesOf tbl c).length = 1 → v? = none) := by
  have hkeys : (stats tbl).map (fun e => e.1) = commodities tbl := by
    unfold stats
    rw [List.map_map]
    exact List.map_id _
  have hc' : c ∈ commodities tbl := by
    unfold commodities
    exact List.mem_dedup.mpr hc
  refine ⟨⟨hkeys, by rw [hkeys]; exact List.nodup_dedup _⟩,
    listMean (pricesOf tbl c), sampleVar (pricesOf tbl c),
    lookupStats_stats tbl c hc', rfl, ?_, ?_⟩
  · intro hlen
    have hv : sampleVar (pricesOf tbl c) =
        some (((pricesOf tbl c).map
            (fun x => (x - listMean (pricesOf tbl c)) ^ 2)).sum /
          (((pricesOf tbl c).length : ℚ) - 1)) := by
      unfold sampleVar
      rw [if_pos hlen]
    refine ⟨_, hv, rfl, Real.sqrt_nonneg _, ?_⟩
    rw [Real.sq_sqrt (by exact_mod_cast sampleVar_nonneg hv)]
    push_cast
    rfl
  · intro h1
    unfold sampleVar
    rw [if_neg (by omega)]

/-- C2 witness: the characterization applies to commodity `X` of the
concrete table `tbl4`; in particular the stats keys are nodup. -/
theorem stats_mean_std_characterization_witness :
    ((stats tbl4).map (fun e => e.1)).Nodup :=
  (stats_mean_std_characterization tbl4 "X" (by decide)).1.2

/-- C3: a lag record is emitted exactly when some typhoon row has a
non-null date `t` (null-date rows are skipped), the record carries that
typhoon's name, its commodity has at least one flagged observation
dated within the closed window from `t` to `t` plus two calendar
months, its `first_spike_date` is the earliest such date, and its
`lag_months` is `(spike.year - t.year) * 12 + (spike.month - t.month)`;
in particular a typhoon with no qualifying spike emits nothing. -/
theorem computeLag_characterization (tys : List Typhoon)
    (fp : List FlaggedRow) (rec : LagRecord) :
    rec ∈ computeLag tys fp ↔
      ∃ ty ∈ tys, ∃ t, ty.date = some t ∧ rec.typhoon_name = ty.name ∧
        (∃ r ∈ fp, r.flag = true ∧ Date.le t r.date ∧
          Date.le r.date (addMonths t 2) ∧ r.commodity = rec.commodity ∧
          r.date = rec.first_spike_date) ∧
        (∀ r ∈ fp, r.flag = true → Date.le t r.date →
          Date.le r.date (addMonths t 2) → r.commodity = rec.commodity →
          Date.le rec.first_spike_date r.date) ∧
        rec.lag_months = lagMonths t rec.first_spike_date := by
  rw [mem_computeLag]
  constructor
  · rintro ⟨ty, hty, h⟩
    rcases mem_typhoonLags.mp h with ⟨t, hdate, hname, hmem, hmin, hlag⟩
    refine ⟨ty, hty, t, hdate, hname, mem_qualDates.mp hmem, ?_, hlag⟩
    intro r hr hf h1 h2 hcomm
    exact hmin r.date (mem_qualDates.mpr ⟨r, hr, hf, h1, h2, hcomm, rfl⟩)
  · rintro ⟨ty, hty, t, hdate, hname, hex, hall, hlag⟩
    refine ⟨ty, hty, mem_typhoonLags.mpr
      ⟨t, hdate, hname, mem_qualDates.mpr hex, ?_, hlag⟩⟩
    intro x hx
    rcases mem_qualDates.mp hx with ⟨r, hr, hf, h1, h2, hcomm, rfl⟩
    exact hall r hr hf h1 h2 hcomm

/-- C4 counterexample: for the single-commodity table with prices
10, 10, 10, 1000 the mean is 257.5 and the sample variance is exactly
245025 = 495 squared, so the threshold `mean + 1.5 * std` equals 1000
exactly and the price-1000 observation is NOT flagged — against the
claim's threshold of about 999.8 with the observation flagged true. -/
theorem spike_example_1000_not_flagged :
    listMean (pricesOf tbl4 "X") = 515 / 2 ∧
    sampleVar (pricesOf tbl4 "X") = some 245025 ∧
    ((515 / 2 : ℚ) : ℝ) + 3 / 2 * Real.sqrt (((245025 : ℚ) : ℝ)) = 1000 ∧
    Price_Spike tbl4 row1000 = false := by
  refine ⟨tbl4_mean, tbl4_var, ?_, tbl4_flag_false⟩
  rw [sqrt_245025]
  norm_num

/-- C4 amended: for prices 10, 10, 10, 1000 the mean is 257.5, the
sample standard deviation is exactly 495, hence the spike threshold is
exactly 1000, and the price-1000 observation is flagged false because
the comparison `retail_price > threshold` is strict. -/
theorem spike_example_exact_threshold :
    listMean (pricesOf tbl4 "X") = 515 / 2 ∧
    sampleVar (pricesOf tbl4 "X") = some 245025 ∧
    Real.sqrt (((245025 : ℚ) : ℝ)) = 495 ∧
    ¬ ((1000 : ℝ) > ((515 / 2 : ℚ) : ℝ) + 3 / 2 * Real.sqrt (((245025 : ℚ) : ℝ))) ∧
    Price_Spike tbl4 row1000 = false := by
  refine ⟨tbl4_mean, tbl4_var, sqrt_245025, ?_, tbl4_flag_false⟩
  rw [sqrt_245025]
  norm_num

/-- C5: the spike flag is monotonic in price at fixed commodity stats:
if a flagged observation's price is raised the flag stays true, so a
price increase can only turn the flag from false to true. -/
theorem spikeFlag_monotone_in_price (m p p' : ℚ) (s : Option ℚ)
    (hle : p ≤ p') (h : spikeFlagO p m s = true) :
    spikeFlagO p' m s = true := by
  cases s with
  | none => exact absurd h (by simp [spikeFlagO])
  | some v =>
    simp only [spikeFlagO, Bool.and_eq_true, decide_eq_true_eq] at h ⊢
    obtain ⟨h1, h2⟩ := h
    have hd : p - m ≤ p' - m := by linarith
    have hd0 : 0 < p - m := by linarith
    have hsq : (p - m) ^ 2 ≤ (p' - m) ^ 2 := by nlinarith
    exact ⟨by linarith, by nlinarith⟩

/-- C5 witness: at mean 0 and variance 1 the price-2 observation is
flagged, and raising its price to 3 keeps the flag true. -/
theorem spikeFlag_monotone_in_price_witness :
    spikeFlagO 3 0 (some 1) = true :=
  spikeFlag_monotone_in_price 0 2 3 (some 1) (by decide)
    (by norm_num [spikeFlagO])

/-- C6: every lag record emitted by the lag loop has a nonnegative
`Lag_Months`, for any typhoon table and flagged price table whose
non-null dates are calendar dates. -/
theorem computeLag_lag_nonneg (tys : List Typhoon) (fp : List FlaggedRow)
    (hty : ∀ ty ∈ tys, ∀ t, ty.date = some t → t.Valid)
    (hfp : ∀ r ∈ fp, r.date.Valid)
    (rec : LagRecord) (hrec : rec ∈ computeLag tys fp) :
    0 ≤ rec.lag_months := by
  rcases mem_computeLag.mp hrec with ⟨ty, htymem, h⟩
  rcases mem_typhoonLags.mp h with ⟨t, hdate, -, hmem, -, hlag⟩
  have htv := hty ty htymem t hdate
  rcases mem_qualDates.mp hmem with ⟨r, hr, -, h1, -, -, hdeq⟩
  have hsv : rec.first_spike_date.Valid := hdeq ▸ hfp r hr
  rw [hlag, lagMonths_eq_monthIndex htv.1 hsv.1]
  have hle := monthIndex_le_of_le htv.1 htv.2 hsv.1 (hdeq ▸ h1)
  omega

/-- C6 witness: a typhoon on 2021-06-05 with a flagged Rice observation
on 2021-07-01 yields the lag-1 record, whose lag is nonnegative. -/
theorem computeLag_lag_nonneg_witness :
    (0 : Int) ≤ (⟨"T", "Rice", ⟨2021, 7, 1⟩, 1⟩ : LagRecord).lag_months :=
  computeLag_lag_nonneg [⟨"T", some ⟨2021, 6, 5⟩⟩]
    [⟨⟨2021, 7, 1⟩, "Rice", 100, true⟩]
    (by decide) (by decide) ⟨"T", "Rice", ⟨2021, 7, 1⟩, 1⟩ (by decide)

/-- C7: the lag summary has one row per distinct commodity among the
lag records (a commodity with no lag record is absent, not
zero-filled), and each row carries the arithmetic mean of the
commodity's `Lag_Months`, their median, and the count of its
records. -/
theorem summarizeLag_characterization (recs : List LagRecord) :
    ((summarizeLag recs).map (fun e => e.1) =
      (recs.map (fun r => r.commodity)).dedup) ∧
    (∀ c, (∃ e ∈ summarizeLag recs, e.1 = c) ↔ ∃ r ∈ recs, r.commodity = c) ∧
    ∀ e ∈ summarizeLag recs,
      e.2.1 = (lagsOf recs e.1).sum / ((lagsOf recs e.1).length : ℚ) ∧
      e.2.2.1 = median (lagsOf recs e.1) ∧
      e.2.2.2 = (lagsOf recs e.1).length := by
  refine ⟨?_, ?_, ?_⟩
  · unfold summarizeLag
    rw [List.map_map]
    exact List.map_id _
  · intro c
    constructor
    · rintro ⟨e, he, rfl⟩
      unfold summarizeLag at he
      rcases List.mem_map.mp he with ⟨k, hk, rfl⟩
      simpa using List.mem_map.mp (List.mem_dedup.mp hk)
    · rintro ⟨r, hr, rfl⟩
      refine ⟨(r.commodity, listMean (lagsOf recs r.commodity),
        median (lagsOf recs r.commodity), (lagsOf recs r.commodity).length),
        ?_, rfl⟩
      unfold summarizeLag
      exact List.mem_map.mpr ⟨r.commodity,
        List.mem_dedup.mpr (List.mem_map.mpr ⟨r, hr, rfl⟩), rfl⟩
  · intro e he
    unfold summarizeLag at he
    rcases List.mem_map.mp he with ⟨k, hk, rfl⟩
    exact ⟨rfl, rfl, rfl⟩

/-- C8 counterexample: with an empty typhoon table but a one-row price
table, the commodity stats table is not empty (and the flagged table is
not empty either), contradicting the claim that EVERY derived output is
empty whenever either input table is empty; the lag outputs are empty
as the claim says. -/
theorem empty_typhoons_stats_nonempty :
    stats [⟨⟨2021, 1, 1⟩, "Rice", 40⟩] = [("Rice", 40, none)] ∧
    stats [⟨⟨2021, 1, 1⟩, "Rice", 40⟩] ≠ [] ∧
    computeLag [] (flagTable [⟨⟨2021, 1, 1⟩, "Rice", 40⟩]) = [] := by
  refine ⟨?_, ?_, rfl⟩
  · unfold stats commodities pricesOf listMean sampleVar
    norm_num
  · unfold stats commodities
    simp

/-- C8 amended: an empty price table yields empty stats, an empty
flagged table, no lag records and an empty lag summary, whatever the
typhoon table; an empty typhoon table yields no lag records and an
empty lag summary, whatever the flagged price table (price-derived
stats are still computed from the nonempty price table); neither case
raises an error — every operation stays total. -/
theorem empty_inputs_degenerate :
    (∀ tys : List Typhoon,
      stats ([] : List PriceRow) = [] ∧
      flagTable [] = [] ∧
      computeLag tys (flagTable []) = [] ∧
      summarizeLag (computeLag tys (flagTable [])) = []) ∧
    (∀ fp : List FlaggedRow,
      computeLag [] fp = [] ∧ summarizeLag (computeLag [] fp) = []) := by
  constructor
  · intro tys
    have hcl : computeLag tys ([] : List FlaggedRow) = [] := by
      unfold computeLag
      rw [List.flatten_eq_nil_iff]
      intro l hl
      rcases List.mem_map.mp hl with ⟨ty, -, rfl⟩
      obtain ⟨n, d⟩ := ty
      cases d <;> rfl
    exact ⟨rfl, rfl, hcl, by rw [show flagTable [] = ([] : List FlaggedRow) from rfl, hcl]; rfl⟩
  · intro fp
    exact ⟨rfl, rfl⟩

/-- C9: the merge-based spike computation of lines 432-437 and the
transform-based fallback of lines 511-512 produce the same Boolean flag
for every row and every price table. -/
theorem spike_merge_eq_transform (tbl : List PriceRow) (r : PriceRow) :
    Price_Spike tbl r = Price_Spike_transform tbl r := by
  by_cases hc : r.commodity ∈ commodities tbl
  · unfold Price_Spike Price_Spike_transform
    rw [lookupStats_stats tbl _ hc]
  · unfold Price_Spike Price_Spike_transform
    rw [lookupStats_stats_none tbl _ hc, pricesOf_eq_nil tbl _ hc]
    rfl

/-- C10: every lag record emitted by the lag loop has `Lag_Months` at
most 2, the window width: the selected date is bounded by the typhoon
date plus two calendar months, so the month difference cannot exceed
2 — for any inputs whose dates are calendar dates. -/
theorem computeLag_lag_le_two (tys : List Typhoon) (fp : List FlaggedRow)
    (hty : ∀ ty ∈ tys, ∀ t, ty.date = some t → t.Valid)
    (hfp : ∀ r ∈ fp, r.date.Valid)
    (rec : LagRecord) (hrec : rec ∈ computeLag tys fp) :
    rec.lag_months ≤ 2 := by
  rcases mem_computeLag.mp hrec with ⟨ty, htymem, h⟩
  rcases mem_typhoonLags.mp h with ⟨t, hdate, -, hmem, -, hlag⟩
  have htv := hty ty htymem t hdate
  rcases mem_qualDates.mp hmem with ⟨r, hr, -, -, h2, -, hdeq⟩
  have hsv : rec.first_spike_date.Valid := hdeq ▸ hfp r hr
  have hub := monthIndex_le_of_le hsv.1 hsv.2 (addMonths_valid t 2).1 (hdeq ▸ h2)
  rw [monthIndex_addMonths] at hub
  rw [hlag, lagMonths_eq_monthIndex htv.1 hsv.1]
  omega

/-- C10 witness: the lag-1 record produced by a typhoon on 2021-06-05
and a flagged Rice spike on 2021-07-01 has lag at most 2. -/
theorem computeLag_lag_le_two_witness :
    (⟨"T", "Rice", ⟨2021, 7, 1⟩, 1⟩ : LagRecord).lag_months ≤ 2 :=
  computeLag_lag_le_two [⟨"T", some ⟨2021, 6, 5⟩⟩]
    [⟨⟨2021, 7, 1⟩, "Rice", 100, true⟩]
    (by decide) (by decide) ⟨"T", "Rice", ⟨2021, 7, 1⟩, 1⟩ (by decide)

end AgriPrice
